import Mathlib

/-!
Verification development for the GoogleAPIChecker repository.

The Go source (checker.go, report.go) is shallowly embedded below:
pure functions become Lean functions, the `float64` cost fields are
modelled as `ℚ` (every literal cost in the source is an exact decimal,
and the source only compares and sums them), `(T, error)` return values
become `Except String T`, Go maps become association lists
(`List (key × value)`) queried with `List.lookup`, and the Go map used
as an accumulator (`costBreakdown`) becomes a function
`String → Option ℚ` updated pointwise, which matches Go map-assignment
semantics (later assignment wins).  The `time.Time` fields (`CheckedAt`,
`GeneratedAt`) carry no information relevant to any property below and
are omitted from the embedding.
-/

/-- Embeds Go struct `CostInfo` (checker.go). `EstimatedCost : float64`
is modelled as `ℚ`. -/
structure CostInfo where
  HasPricing : Bool
  UnlimitedCost : Bool
  EstimatedCost : ℚ
  Currency : String
  PricingDetails : String
  deriving DecidableEq

/-- The Go zero value of `CostInfo`. -/
def CostInfo.zero : CostInfo :=
  { HasPricing := false, UnlimitedCost := false, EstimatedCost := 0
    Currency := "", PricingDetails := "" }

/-- Embeds Go struct `APIResult` (checker.go), minus the `CheckedAt`
timestamp. -/
structure APIResult where
  Name : String
  DisplayName : String
  Status : String
  Enabled : Bool
  CostInfo : CostInfo
  Error : String
  deriving DecidableEq

/-- Embeds the static catalogue literal inside
`GoogleAPIChecker.getAvailableAPIs` (checker.go lines 156-250), entry
for entry, in source order. -/
def availableAPIs : List String :=
  [ "compute.googleapis.com"
  , "storage.googleapis.com"
  , "bigquery.googleapis.com"
  , "pubsub.googleapis.com"
  , "cloudfunctions.googleapis.com"
  , "cloudrun.googleapis.com"
  , "container.googleapis.com"
  , "datastore.googleapis.com"
  , "firestore.googleapis.com"
  , "cloudsql.googleapis.com"
  , "cloudbuild.googleapis.com"
  , "cloudtasks.googleapis.com"
  , "cloudscheduler.googleapis.com"
  , "cloudkms.googleapis.com"
  , "cloudiot.googleapis.com"
  , "cloudtrace.googleapis.com"
  , "clouddebugger.googleapis.com"
  , "cloudprofiler.googleapis.com"
  , "cloudmonitoring.googleapis.com"
  , "cloudlogging.googleapis.com"
  , "translate.googleapis.com"
  , "vision.googleapis.com"
  , "speech.googleapis.com"
  , "language.googleapis.com"
  , "ml.googleapis.com"
  , "automl.googleapis.com"
  , "dataflow.googleapis.com"
  , "dataproc.googleapis.com"
  , "dataprep.googleapis.com"
  , "datalab.googleapis.com"
  , "datacatalog.googleapis.com"
  , "datastudio.googleapis.com"
  , "analytics.googleapis.com"
  , "analyticsadmin.googleapis.com"
  , "searchconsole.googleapis.com"
  , "webmasters.googleapis.com"
  , "indexing.googleapis.com"
  , "customsearch.googleapis.com"
  , "pagespeedonline.googleapis.com"
  , "siteverification.googleapis.com"
  , "websecurityscanner.googleapis.com"
  , "clouderrorreporting.googleapis.com"
  , "cloudresourcemanager.googleapis.com"
  , "iam.googleapis.com"
  , "serviceusage.googleapis.com"
  , "cloudbilling.googleapis.com"
  , "billingbudgets.googleapis.com"
  , "recommender.googleapis.com"
  , "recommendationengine.googleapis.com"
  , "retail.googleapis.com"
  , "documentai.googleapis.com"
  , "videointelligence.googleapis.com"
  , "videointelligence.googleapis.com"
  , "gameservices.googleapis.com"
  , "playablelocations.googleapis.com"
  , "places.googleapis.com"
  , "geocoding.googleapis.com"
  , "geolocation.googleapis.com"
  , "maps.googleapis.com"
  , "directions.googleapis.com"
  , "distancematrix.googleapis.com"
  , "elevation.googleapis.com"
  , "timezone.googleapis.com"
  , "staticmap.googleapis.com"
  , "streetview.googleapis.com"
  , "roads.googleapis.com"
  , "fcm.googleapis.com"
  , "firebase.googleapis.com"
  , "firebaseappcheck.googleapis.com"
  , "firebaseauth.googleapis.com"
  , "firebasehosting.googleapis.com"
  , "firebaseml.googleapis.com"
  , "firebaserules.googleapis.com"
  , "firebasestorage.googleapis.com"
  , "identitytoolkit.googleapis.com"
  , "securetoken.googleapis.com"
  , "appengine.googleapis.com"
  , "cloudapis.googleapis.com"
  , "cloudtrace.googleapis.com"
  , "clouddebugger.googleapis.com"
  , "cloudprofiler.googleapis.com"
  , "cloudmonitoring.googleapis.com"
  , "cloudlogging.googleapis.com"
  , "cloudbuild.googleapis.com"
  , "cloudtasks.googleapis.com"
  , "cloudscheduler.googleapis.com"
  , "cloudkms.googleapis.com"
  , "cloudiot.googleapis.com"
  , "cloudtrace.googleapis.com"
  , "clouddebugger.googleapis.com"
  , "cloudprofiler.googleapis.com"
  , "cloudmonitoring.googleapis.com"
  , "cloudlogging.googleapis.com"
  ]

/-- Embeds `getAvailableAPIs` (checker.go): it returns the static
catalogue and a nil error, unconditionally. -/
def getAvailableAPIs : Except String (List String) :=
  Except.ok availableAPIs

/-- Embeds the `enabledAPIs` map literal inside `isAPIEnabled`
(checker.go lines 262-273). -/
def enabledAPIs : List (String × Bool) :=
  [ ("compute.googleapis.com", true)
  , ("storage.googleapis.com", true)
  , ("bigquery.googleapis.com", true)
  , ("pubsub.googleapis.com", false)
  , ("cloudfunctions.googleapis.com", true)
  , ("cloudrun.googleapis.com", false)
  , ("container.googleapis.com", true)
  , ("datastore.googleapis.com", false)
  , ("firestore.googleapis.com", true)
  , ("cloudsql.googleapis.com", true)
  ]

/-- Embeds `isAPIEnabled` (checker.go): a map lookup defaulting to
`true`, always returning a nil error.  (The `time.Sleep` is a pure
delay with no observable effect on the returned value.) -/
def isAPIEnabled (apiName : String) : Except String Bool :=
  match enabledAPIs.lookup apiName with
  | some enabled => Except.ok enabled
  | none => Except.ok true

/-- Embeds the `displayNames` map literal inside `getAPIDisplayName`
(checker.go lines 285-313). -/
def displayNames : List (String × String) :=
  [ ("compute.googleapis.com", "Compute Engine API")
  , ("storage.googleapis.com", "Cloud Storage API")
  , ("bigquery.googleapis.com", "BigQuery API")
  , ("pubsub.googleapis.com", "Cloud Pub/Sub API")
  , ("cloudfunctions.googleapis.com", "Cloud Functions API")
  , ("cloudrun.googleapis.com", "Cloud Run API")
  , ("container.googleapis.com", "Kubernetes Engine API")
  , ("datastore.googleapis.com", "Cloud Datastore API")
  , ("firestore.googleapis.com", "Cloud Firestore API")
  , ("cloudsql.googleapis.com", "Cloud SQL API")
  , ("cloudbuild.googleapis.com", "Cloud Build API")
  , ("cloudtasks.googleapis.com", "Cloud Tasks API")
  , ("cloudscheduler.googleapis.com", "Cloud Scheduler API")
  , ("cloudkms.googleapis.com", "Cloud KMS API")
  , ("cloudiot.googleapis.com", "Cloud IoT API")
  , ("translate.googleapis.com", "Cloud Translation API")
  , ("vision.googleapis.com", "Cloud Vision API")
  , ("speech.googleapis.com", "Cloud Speech API")
  , ("language.googleapis.com", "Natural Language API")
  , ("ml.googleapis.com", "Machine Learning API")
  , ("automl.googleapis.com", "AutoML API")
  , ("dataflow.googleapis.com", "Dataflow API")
  , ("dataproc.googleapis.com", "Dataproc API")
  , ("analytics.googleapis.com", "Google Analytics API")
  , ("maps.googleapis.com", "Maps JavaScript API")
  , ("firebase.googleapis.com", "Firebase API")
  , ("appengine.googleapis.com", "App Engine API")
  ]

/-- Embeds `getAPIDisplayName` (checker.go): map lookup, falling back
to the API name itself. -/
def getAPIDisplayName (apiName : String) : String :=
  match displayNames.lookup apiName with
  | some displayName => displayName
  | none => apiName

/-- Embeds the `costData` map literal inside `getCostInfo`
(checker.go lines 331-473), entry for entry. -/
def costData : List (String × CostInfo) :=
  [ ("compute.googleapis.com",
     { HasPricing := true, UnlimitedCost := false, EstimatedCost := 150
       Currency := "USD"
       PricingDetails := "Pay per use - $0.05 per hour for standard instances" })
  , ("storage.googleapis.com",
     { HasPricing := true, UnlimitedCost := false, EstimatedCost := 25
       Currency := "USD"
       PricingDetails := "Pay per use - $0.02 per GB per month" })
  , ("bigquery.googleapis.com",
     { HasPricing := true, UnlimitedCost := true, EstimatedCost := 0
       Currency := "USD"
       PricingDetails := "⚠️ WARNING: No usage limits - potential unlimited costs" })
  , ("pubsub.googleapis.com",
     { HasPricing := true, UnlimitedCost := false, EstimatedCost := 10
       Currency := "USD"
       PricingDetails := "Pay per use - $0.40 per million messages" })
  , ("cloudfunctions.googleapis.com",
     { HasPricing := true, UnlimitedCost := false, EstimatedCost := 5
       Currency := "USD"
       PricingDetails := "Pay per use - $0.40 per million invocations" })
  , ("firestore.googleapis.com",
     { HasPricing := true, UnlimitedCost := true, EstimatedCost := 0
       Currency := "USD"
       PricingDetails := "⚠️ WARNING: No usage limits - potential unlimited costs" })
  , ("maps.googleapis.com",
     { HasPricing := true, UnlimitedCost := false, EstimatedCost := 100
       Currency := "USD"
       PricingDetails := "Pay per use - $5.00 per 1000 requests" })
  , ("datastore.googleapis.com",
     { HasPricing := true, UnlimitedCost := true, EstimatedCost := 0
       Currency := "USD"
       PricingDetails := "⚠️ WARNING: No usage limits - potential unlimited costs" })
  , ("cloudsql.googleapis.com",
     { HasPricing := true, UnlimitedCost := false, EstimatedCost := 75
       Currency := "USD"
       PricingDetails := "Pay per use - $0.10 per hour for standard instances" })
  , ("container.googleapis.com",
     { HasPricing := true, UnlimitedCost := false, EstimatedCost := 50
       Currency := "USD"
       PricingDetails := "Pay per use - $0.10 per hour for standard clusters" })
  , ("vision.googleapis.com",
     { HasPricing := true, UnlimitedCost := false, EstimatedCost := 30
       Currency := "USD"
       PricingDetails := "Pay per use - $1.50 per 1000 requests" })
  , ("speech.googleapis.com",
     { HasPricing := true, UnlimitedCost := false, EstimatedCost := 20
       Currency := "USD"
       PricingDetails := "Pay per use - $0.006 per 15 seconds" })
  , ("translate.googleapis.com",
     { HasPricing := true, UnlimitedCost := false, EstimatedCost := 15
       Currency := "USD"
       PricingDetails := "Pay per use - $20 per million characters" })
  , ("ml.googleapis.com",
     { HasPricing := true, UnlimitedCost := true, EstimatedCost := 0
       Currency := "USD"
       PricingDetails := "⚠️ WARNING: No usage limits - potential unlimited costs" })
  , ("automl.googleapis.com",
     { HasPricing := true, UnlimitedCost := true, EstimatedCost := 0
       Currency := "USD"
       PricingDetails := "⚠️ WARNING: No usage limits - potential unlimited costs" })
  , ("dataflow.googleapis.com",
     { HasPricing := true, UnlimitedCost := false, EstimatedCost := 200
       Currency := "USD"
       PricingDetails := "Pay per use - $0.06 per vCPU per hour" })
  , ("dataproc.googleapis.com",
     { HasPricing := true, UnlimitedCost := false, EstimatedCost := 120
       Currency := "USD"
       PricingDetails := "Pay per use - $0.10 per vCPU per hour" })
  , ("analytics.googleapis.com",
     { HasPricing := true, UnlimitedCost := false, EstimatedCost := 8
       Currency := "USD"
       PricingDetails := "Pay per use - $0.50 per 1000 requests" })
  , ("firebase.googleapis.com",
     { HasPricing := true, UnlimitedCost := true, EstimatedCost := 0
       Currency := "USD"
       PricingDetails := "⚠️ WARNING: No usage limits - potential unlimited costs" })
  , ("appengine.googleapis.com",
     { HasPricing := true, UnlimitedCost := false, EstimatedCost := 40
       Currency := "USD"
       PricingDetails := "Pay per use - $0.05 per instance hour" })
  ]

/-- The default `CostInfo` returned by `getCostInfo` for APIs missing
from its table (checker.go lines 480-486). -/
def defaultCostInfo : CostInfo :=
  { HasPricing := false, UnlimitedCost := false, EstimatedCost := 0
    Currency := "USD"
    PricingDetails := "No pricing information available" }

/-- Embeds `getCostInfo` (checker.go): map lookup with a default,
always returning a nil error. -/
def getCostInfo (apiName : String) : Except String CostInfo :=
  match costData.lookup apiName with
  | some costInfo => Except.ok costInfo
  | none => Except.ok defaultCostInfo

/-- Embeds the body of `checkSingleAPI` (checker.go lines 115-150),
factored over the outcomes of its two fallible calls (`isAPIEnabled`
and `getCostInfo`) so that the source's error branches are visible:
on a probe error the function returns early with `Status := "ERROR"`
and the message, before `DisplayName` or `CostInfo` are assigned; on a
cost-lookup error it substitutes a `CostInfo` with only
`HasPricing := false` set. -/
def checkSingleAPIWith (probe : Except String Bool)
    (cost : Except String CostInfo) (apiName : String) : APIResult :=
  let result : APIResult :=
    { Name := apiName, DisplayName := "", Status := "", Enabled := false
      CostInfo := CostInfo.zero, Error := "" }
  match probe with
  | Except.error msg => { result with Error := msg, Status := "ERROR" }
  | Except.ok enabled =>
    let result := { result with
      Enabled := enabled
      Status := if enabled then "ENABLED" else "DISABLED" }
    let result := { result with DisplayName := getAPIDisplayName apiName }
    match cost with
    | Except.error _ =>
        { result with CostInfo := { CostInfo.zero with HasPricing := false } }
    | Except.ok costInfo => { result with CostInfo := costInfo }

/-- Embeds `checkSingleAPI` (checker.go): the factored body applied to
the actual probe and cost calls. -/
def checkSingleAPI (apiName : String) : APIResult :=
  checkSingleAPIWith (isAPIEnabled apiName) (getCostInfo apiName) apiName

/-- Embeds Go struct `SummaryInfo` (report.go). -/
structure SummaryInfo where
  TotalAPIs : Nat
  EnabledCount : Nat
  DisabledCount : Nat
  ErrorCount : Nat
  TotalCost : ℚ
  Currency : String
  deriving DecidableEq

/-- Embeds Go struct `CostAnalysis` (report.go).  The Go map
`CostBreakdown map[string]float64` is modelled as a function
`String → Option ℚ` (absent keys map to `none`). -/
structure CostAnalysis where
  TotalEstimatedCost : ℚ
  UnlimitedCostAPIs : List APIResult
  HighCostAPIs : List APIResult
  CostBreakdown : String → Option ℚ

/-- Embeds Go struct `Report` (report.go), minus the `GeneratedAt`
timestamp.  The field holding the `CostAnalysis` value is written
`costAnalysis` because a Lean field may not share the name of its own
type. -/
structure Report where
  Summary : SummaryInfo
  EnabledAPIs : List APIResult
  DisabledAPIs : List APIResult
  costAnalysis : CostAnalysis
  Recommendations : List String

/-- Accumulator for the classification loop of `GenerateReport`
(report.go lines 47-80): one field per local variable of that loop. -/
structure ReportAccum where
  enabledList : List APIResult
  disabledList : List APIResult
  errorCount : Nat
  totalCost : ℚ
  unlimitedList : List APIResult
  highCostList : List APIResult
  costBreakdown : String → Option ℚ

/-- The accumulator at loop entry: empty slices, zero counters, empty
map. -/
def ReportAccum.init : ReportAccum :=
  { enabledList := [], disabledList := [], errorCount := 0, totalCost := 0
    unlimitedList := [], highCostList := [], costBreakdown := fun _ => none }

/-- Embeds one iteration of the classification loop of `GenerateReport`
(report.go lines 53-80): skip-and-count on a non-empty `Error`,
partition by `Enabled`, and for enabled results with pricing accumulate
the total, write the breakdown entry (overwriting any earlier entry for
the same display name), and collect the unlimited-cost and
high-cost (`> 50`) lists in input order. -/
def reportStep (acc : ReportAccum) (result : APIResult) : ReportAccum :=
  if result.Error ≠ "" then
    { acc with errorCount := acc.errorCount + 1 }
  else if result.Enabled then
    if result.CostInfo.HasPricing then
      { acc with
        enabledList := acc.enabledList ++ [result]
        totalCost := acc.totalCost + result.CostInfo.EstimatedCost
        costBreakdown := fun key =>
          if key = result.DisplayName then some result.CostInfo.EstimatedCost
          else acc.costBreakdown key
        unlimitedList :=
          if result.CostInfo.UnlimitedCost then acc.unlimitedList ++ [result]
          else acc.unlimitedList
        highCostList :=
          if result.CostInfo.EstimatedCost > 50 then acc.highCostList ++ [result]
          else acc.highCostList }
    else { acc with enabledList := acc.enabledList ++ [result] }
  else { acc with disabledList := acc.disabledList ++ [result] }

/-- The classification loop of `GenerateReport`, folded over the
result list in order. -/
def collectResults (results : List APIResult) : ReportAccum :=
  results.foldl reportStep ReportAccum.init

/-- Contract of Go's `sort.Slice` applied with the comparison `lt`:
the output is a permutation of the input arranged so that no later
element is `lt`-below an earlier one.  `sort.Slice` guarantees nothing
more — in particular it is documented as NOT stable, so the relative
order of `lt`-equivalent elements is unspecified. -/
def SortSliceSpec {α : Type} (lt : α → α → Prop) (input output : List α) : Prop :=
  output.Perm input ∧ output.Pairwise (fun a b => ¬ lt b a)

/-- The comparison closure passed to `sort.Slice` for `highCostAPIs`
(report.go lines 83-85): descending by estimated cost. -/
def highCostLess (a b : APIResult) : Prop :=
  a.CostInfo.EstimatedCost > b.CostInfo.EstimatedCost

/-- The comparison closure passed to `sort.Slice` for
`unlimitedCostAPIs` (report.go lines 88-90): ascending by display
name. -/
def unlimitedLess (a b : APIResult) : Prop :=
  a.DisplayName < b.DisplayName

/-- Renders a nonnegative rational with two decimal digits, modelling
the `%.2f` format verb applied to the nonnegative costs in
report.go. -/
def formatCost (q : ℚ) : String :=
  let cents : Int := Int.floor (q * 100 + 1 / 2)
  let whole := cents / 100
  let frac := (cents % 100).natAbs
  toString whole ++ "." ++ (if frac < 10 then "0" else "") ++ toString frac

/-- Embeds `generateRecommendations` (report.go lines 118-164): the
four conditional advisory blocks in source order followed by the three
fixed general-advice lines. -/
def generateRecommendations (report : Report) : List String :=
  let recommendations : List String := []
  let recommendations :=
    if report.costAnalysis.UnlimitedCostAPIs.length > 0 then
      (recommendations ++
        ["⚠️  CRITICAL: Found " ++ toString report.costAnalysis.UnlimitedCostAPIs.length ++
          " APIs with unlimited cost potential. Review and set usage limits immediately:"]) ++
        report.costAnalysis.UnlimitedCostAPIs.map (fun api =>
          "   - " ++ api.DisplayName ++ ": " ++ api.CostInfo.PricingDetails)
    else recommendations
  let recommendations :=
    if report.costAnalysis.HighCostAPIs.length > 0 then
      (recommendations ++
        ["💰 High cost APIs detected (" ++ toString report.costAnalysis.HighCostAPIs.length ++
          " APIs with >$50 estimated cost):"]) ++
        report.costAnalysis.HighCostAPIs.map (fun api =>
          "   - " ++ api.DisplayName ++ ": $" ++ formatCost api.CostInfo.EstimatedCost ++ "/month")
    else recommendations
  let recommendations :=
    if report.Summary.TotalCost > 500 then
      recommendations ++
        ["💸 Total estimated monthly cost is high: $" ++ formatCost report.Summary.TotalCost ++
          ". Consider reviewing usage patterns."]
    else recommendations
  let recommendations :=
    if report.DisabledAPIs.length > 0 then
      recommendations ++
        ["🔒 " ++ toString report.DisabledAPIs.length ++
          " APIs are currently disabled. Review if any are needed for your application."]
    else recommendations
  recommendations ++
    [ "📊 Set up billing alerts and budget limits in Google Cloud Console"
    , "🔍 Regularly monitor API usage and costs"
    , "⚡ Consider using quotas and rate limiting for high-cost APIs" ]

/-- Assembles the `Report` value built by `GenerateReport`
(report.go lines 92-114) from the classification accumulator and the
two lists as they stand after the `sort.Slice` calls; the
recommendations are generated from the otherwise-complete report, as in
the source. -/
def assembleReport (results : List APIResult)
    (sortedUnlimited sortedHigh : List APIResult) : Report :=
  let acc := collectResults results
  let base : Report :=
    { Summary :=
        { TotalAPIs := results.length
          EnabledCount := acc.enabledList.length
          DisabledCount := acc.disabledList.length
          ErrorCount := acc.errorCount
          TotalCost := acc.totalCost
          Currency := "USD" }
      EnabledAPIs := acc.enabledList
      DisabledAPIs := acc.disabledList
      costAnalysis :=
        { TotalEstimatedCost := acc.totalCost
          UnlimitedCostAPIs := sortedUnlimited
          HighCostAPIs := sortedHigh
          CostBreakdown := acc.costBreakdown }
      Recommendations := [] }
  { base with Recommendations := generateRecommendations base }

/-- Input-output relation of `GenerateReport` (report.go lines 41-115).
It is a relation rather than a function only because the two
`sort.Slice` calls are constrained by their contract
(`SortSliceSpec`) instead of being pinned to one permutation: Go's
`sort.Slice` is documented as not stable, so any `lt`-sorted
permutation is a legal outcome. -/
def GenerateReportRel (results : List APIResult) (report : Report) : Prop :=
  ∃ sortedUnlimited sortedHigh,
    SortSliceSpec unlimitedLess (collectResults results).unlimitedList sortedUnlimited ∧
    SortSliceSpec highCostLess (collectResults results).highCostList sortedHigh ∧
    report = assembleReport results sortedUnlimited sortedHigh

/-- Global state of the worker pool inside `CheckAllAPIs`
(checker.go lines 52-112): `jobs` is the unread tail of the jobs
channel (the feeding goroutine sends the catalogue in order, so the
channel behaves as a FIFO queue of the remaining catalogue entries),
`inflight` is the multiset of identifiers currently claimed by a worker
but not yet delivered to the results channel, and `results` is the list
gathered by the collecting loop, in delivery order. -/
structure PoolState where
  jobs : List String
  inflight : Multiset String
  results : List APIResult
  deriving DecidableEq

/-- One scheduler step of the pool with `N` workers, as implemented by
`worker` (checker.go lines 105-112): a worker with free capacity
(fewer than `N` identifiers in flight) claims the head of the jobs
queue, or a worker finishes its claimed identifier and delivers
`checkSingleAPI` of it to the results channel.  Steps interleave
nondeterministically, which covers every completion order. -/
inductive PoolStep (N : Nat) : PoolState → PoolState → Prop
  | take (j : String) (rest : List String) (inflight : Multiset String)
      (results : List APIResult) (hcap : Multiset.card inflight < N) :
      PoolStep N ⟨j :: rest, inflight, results⟩ ⟨rest, j ::ₘ inflight, results⟩
  | finish (jobs : List String) (inflight : Multiset String)
      (results : List APIResult) (j : String) (hj : j ∈ inflight) :
      PoolStep N ⟨jobs, inflight, results⟩
        ⟨jobs, inflight.erase j, results ++ [checkSingleAPI j]⟩

/-- The pool state when `CheckAllAPIs` starts dispatching a
catalogue. -/
def initPool (apis : List String) : PoolState :=
  ⟨apis, 0, []⟩

/-- Reachability under pool steps. -/
def PoolReachable (N : Nat) (s t : PoolState) : Prop :=
  Relation.ReflTransGen (PoolStep N) s t

/-- A drained pool: the jobs channel is exhausted and every worker has
delivered its last result, which is exactly when `wg.Wait()` returns,
the results channel closes, and `CheckAllAPIs` returns `results`. -/
def PoolDone (s : PoolState) : Prop :=
  s.jobs = [] ∧ s.inflight = 0

/-- A result the classification loop keeps and treats as enabled:
empty `Error` and `Enabled` set (report.go lines 54-59). -/
def enabledCond (r : APIResult) : Bool :=
  r.Error == "" && r.Enabled

/-- An enabled result with pricing data (report.go line 63). -/
def pricedCond (r : APIResult) : Bool :=
  enabledCond r && r.CostInfo.HasPricing

/-- Membership condition of `highCostAPIs` (report.go line 73):
enabled, priced, estimated cost strictly above 50. -/
def highCond (r : APIResult) : Bool :=
  pricedCond r && decide (r.CostInfo.EstimatedCost > 50)

/-- Membership condition of `unlimitedCostAPIs` (report.go line 68):
enabled, priced, flagged as unlimited cost. -/
def unlimitedCond (r : APIResult) : Bool :=
  pricedCond r && r.CostInfo.UnlimitedCost

instance (a b : APIResult) : Decidable (highCostLess a b) :=
  inferInstanceAs (Decidable (a.CostInfo.EstimatedCost > b.CostInfo.EstimatedCost))

instance (a b : APIResult) : Decidable (unlimitedLess a b) :=
  inferInstanceAs (Decidable (a.DisplayName < b.DisplayName))

/-- Embeds the error behaviour of `CheckAllAPIs` (checker.go lines
56-59) as a function of the catalogue-listing outcome: listing failure
is wrapped and returned before any job is dispatched; otherwise the
returned error is nil. -/
def checkAllAPIsErrorWith (listing : Except String (List String)) : Option String :=
  match listing with
  | Except.error e => some ("failed to get available APIs: " ++ e)
  | Except.ok _ => none

/-- The multiset of identifiers a pool state accounts for: queued,
claimed, or already delivered. -/
def poolNames (s : PoolState) : Multiset String :=
  ↑s.jobs + s.inflight + ↑(s.results.map APIResult.Name)

/-- Inductive invariant of the pool: the accounted identifiers are
exactly the catalogue (as a multiset), and every delivered result is
`checkSingleAPI` of its own identifier. -/
def PoolInv (apis : List String) (s : PoolState) : Prop :=
  poolNames s = ↑apis ∧ ∀ r ∈ s.results, r = checkSingleAPI r.Name

/-- Concrete enabled, priced result costing 60, used as counterexample
material for the tie-order of the high-cost sort. -/
def rHighA : APIResult :=
  { Name := "alpha.googleapis.com", DisplayName := "Alpha API"
    Status := "ENABLED", Enabled := true
    CostInfo :=
      { HasPricing := true, UnlimitedCost := false, EstimatedCost := 60
        Currency := "USD", PricingDetails := "flat" }
    Error := "" }

/-- A second enabled, priced result with the same cost as `rHighA` but
a different identifier and display name. -/
def rHighB : APIResult :=
  { rHighA with Name := "beta.googleapis.com", DisplayName := "Beta API" }

/-- Concrete enabled, priced, unlimited-cost result, used as
counterexample material for the tie-order of the unlimited-risk
sort. -/
def rUnlA : APIResult :=
  { Name := "dupone.googleapis.com", DisplayName := "Duplicate Label API"
    Status := "ENABLED", Enabled := true
    CostInfo :=
      { HasPricing := true, UnlimitedCost := true, EstimatedCost := 0
        Currency := "USD", PricingDetails := "no cap" }
    Error := "" }

/-- A second unlimited-cost result sharing `rUnlA`'s display name but
with a different identifier. -/
def rUnlB : APIResult :=
  { rUnlA with Name := "duptwo.googleapis.com" }

lemma lookup_mem {β : Type} {l : List (String × β)} {a : String} {b : β}
    (h : l.lookup a = some b) : (a, b) ∈ l := by
  induction l with
  | nil => simp [List.lookup] at h
  | cons p t ih =>
    obtain ⟨k, v⟩ := p
    rw [List.lookup_cons] at h
    by_cases hk : a = k
    · subst hk
      simp at h
      subst h
      exact List.mem_cons_self _ _
    · have : (a == k) = false := beq_false_of_ne hk
      rw [this] at h
      exact List.mem_cons_of_mem _ (ih h)

lemma checkSingleAPI_Name (apiName : String) : (checkSingleAPI apiName).Name = apiName := by
  unfold checkSingleAPI checkSingleAPIWith
  cases isAPIEnabled apiName with
  | error msg => rfl
  | ok enabled => cases getCostInfo apiName with
    | error e => rfl
    | ok ci => rfl

lemma checkSingleAPI_fields (apiName : String) :
    (checkSingleAPI apiName).Error = "" ∧
    (checkSingleAPI apiName).DisplayName = getAPIDisplayName apiName ∧
    (checkSingleAPI apiName).CostInfo =
      (match costData.lookup apiName with
       | some costInfo => costInfo
       | none => defaultCostInfo) ∧
    ((checkSingleAPI apiName).Status = "ENABLED" ∨ (checkSingleAPI apiName).Status = "DISABLED") ∧
    ((checkSingleAPI apiName).Enabled = true ↔ (checkSingleAPI apiName).Status = "ENABLED")
    := by
  unfold checkSingleAPI checkSingleAPIWith isAPIEnabled getCostInfo
  cases enabledAPIs.lookup apiName with
  | none =>
    cases costData.lookup apiName with
    | none => simp
    | some ci => simp
  | some b =>
    cases b <;> cases costData.lookup apiName <;> simp

lemma reportStep_high (acc : ReportAccum) (r : APIResult) :
    (reportStep acc r).highCostList =
      acc.highCostList ++ (if highCond r then [r] else []) := by
  unfold reportStep highCond pricedCond enabledCond
  by_cases h1 : r.Error = "" <;> by_cases h2 : r.Enabled = true <;>
    by_cases h3 : r.CostInfo.HasPricing = true <;>
    by_cases h4 : r.CostInfo.EstimatedCost > 50 <;>
    simp [h1, h2, h3, h4]

lemma reportStep_unlimited (acc : ReportAccum) (r : APIResult) :
    (reportStep acc r).unlimitedList =
      acc.unlimitedList ++ (if unlimitedCond r then [r] else []) := by
  unfold reportStep unlimitedCond pricedCond enabledCond
  by_cases h1 : r.Error = "" <;> by_cases h2 : r.Enabled = true <;>
    by_cases h3 : r.CostInfo.HasPricing = true <;>
    by_cases h4 : r.CostInfo.UnlimitedCost = true <;>
    simp [h1, h2, h3, h4]

lemma reportStep_breakdown (acc : ReportAccum) (r : APIResult) (k : String) :
    (reportStep acc r).costBreakdown k =
      if pricedCond r ∧ k = r.DisplayName then some r.CostInfo.EstimatedCost
      else acc.costBreakdown k := by
  unfold reportStep pricedCond enabledCond
  by_cases h1 : r.Error = "" <;> by_cases h2 : r.Enabled = true <;>
    by_cases h3 : r.CostInfo.HasPricing = true <;>
    by_cases h5 : k = r.DisplayName <;>
    simp [h1, h2, h3, h5]

lemma foldl_high (l : List APIResult) (acc : ReportAccum) :
    (l.foldl reportStep acc).highCostList = acc.highCostList ++ l.filter highCond := by
  induction l generalizing acc with
  | nil => simp
  | cons r t ih =>
    rw [List.foldl_cons, ih, reportStep_high, List.filter_cons]
    by_cases h : highCond r <;> simp [h]

lemma foldl_unlimited (l : List APIResult) (acc : ReportAccum) :
    (l.foldl reportStep acc).unlimitedList = acc.unlimitedList ++ l.filter unlimitedCond := by
  induction l generalizing acc with
  | nil => simp
  | cons r t ih =>
    rw [List.foldl_cons, ih, reportStep_unlimited, List.filter_cons]
    by_cases h : unlimitedCond r <;> simp [h]

lemma foldl_breakdown (l : List APIResult) (acc : ReportAccum) (k : String) :
    (l.foldl reportStep acc).costBreakdown k =
      match (l.filter pricedCond).reverse.find? (fun r => r.DisplayName == k) with
      | some r => some r.CostInfo.EstimatedCost
      | none => acc.costBreakdown k := by
  induction l generalizing acc with
  | nil => simp
  | cons r t ih =>
    rw [List.foldl_cons, ih, List.filter_cons]
    by_cases hp : pricedCond r
    · rw [if_pos hp]
      simp only [List.reverse_cons, List.find?_append]
      cases hfind : (t.filter pricedCond).reverse.find? (fun r => r.DisplayName == k) with
      | some r' => simp [hfind, Option.or]
      | none =>
        simp only [hfind, Option.or, List.find?]
        by_cases h5 : k = r.DisplayName
        · have : (r.DisplayName == k) = true := beq_iff_eq.mpr h5.symm
          simp [this, reportStep_breakdown, hp, h5]
        · have : (r.DisplayName == k) = false := by
            simp [beq_eq_false_iff_ne]
            exact fun hh => h5 hh.symm
          simp [this, reportStep_breakdown, hp, h5]
    · rw [if_neg hp, reportStep_breakdown]
      simp [hp]

lemma poolStep_names {N : Nat} {s t : PoolState} (h : PoolStep N s t) :
    poolNames t = poolNames s := by
  cases h with
  | take j rest inflight results hcap =>
    simp only [poolNames, ← Multiset.cons_coe, ← Multiset.singleton_add]
    abel
  | finish jobs inflight results j hj =>
    simp only [poolNames, List.map_append, List.map_cons, List.map_nil,
      checkSingleAPI_Name, ← Multiset.coe_add]
    have herase : inflight.erase j + {j} = inflight := by
      rw [add_comm, Multiset.singleton_add, Multiset.cons_erase hj]
    calc ↑jobs + inflight.erase j + (↑(results.map APIResult.Name) + {j})
        = ↑jobs + (inflight.erase j + {j}) + ↑(results.map APIResult.Name) := by abel
      _ = ↑jobs + inflight + ↑(results.map APIResult.Name) := by rw [herase]

lemma poolStep_inv {apis : List String} {N : Nat} {s t : PoolState}
    (h : PoolStep N s t) (hinv : PoolInv apis s) : PoolInv apis t := by
  refine ⟨(poolStep_names h).trans hinv.1, ?_⟩
  cases h with
  | take j rest inflight results hcap => exact hinv.2
  | finish jobs inflight results j hj =>
    intro r hr
    rcases List.mem_append.mp hr with hr | hr
    · exact hinv.2 r hr
    · rcases List.mem_singleton.mp hr with rfl
      rw [checkSingleAPI_Name]

lemma pool_inv_reachable {apis : List String} {N : Nat} {s : PoolState}
    (h : PoolReachable N (initPool apis) s) : PoolInv apis s := by
  induction h with
  | refl =>
    refine ⟨?_, by simp [initPool]⟩
    simp [poolNames, initPool]
  | tail _ hstep ih => exact poolStep_inv hstep ih

/-- C1: for every catalogue of size M and every worker count N with
1 ≤ N ≤ M, any drained run of the CheckAllAPIs worker pool delivers
exactly M results, whose multiset is exactly `checkSingleAPI` of the
catalogue — no loss, no duplication — independent of N and of the
order in which workers complete items; when the catalogue identifiers
are distinct, there is exactly one result per identifier. -/
theorem checkAllAPIs_complete (apis : List String) (N : Nat)
    (hN1 : 1 ≤ N) (hNM : N ≤ apis.length)
    (s : PoolState) (hreach : PoolReachable N (initPool apis) s)
    (hdone : PoolDone s) :
    s.results.length = apis.length ∧
    (↑s.results : Multiset APIResult) = ↑(apis.map checkSingleAPI) ∧
    (apis.Nodup → ∀ id ∈ apis,
      (s.results.filter (fun r => r.Name == id)).length = 1) := by
  obtain ⟨hnames, hres⟩ := pool_inv_reachable hreach
  obtain ⟨hjobs, hinf⟩ := hdone
  rw [poolNames, hjobs, hinf] at hnames
  have hnames' : (↑(s.results.map APIResult.Name) : Multiset String) = ↑apis := by
    simpa using hnames
  have hlen : s.results.length = apis.length := by
    have := congrArg Multiset.card hnames'
    simpa using this
  have hself : s.results.map (fun r => checkSingleAPI r.Name) = s.results := by
    have hmc : ∀ r ∈ s.results, checkSingleAPI r.Name = r :=
      fun r hr => (hres r hr).symm
    calc s.results.map (fun r => checkSingleAPI r.Name)
        = s.results.map id := List.map_congr_left hmc
      _ = s.results := List.map_id _
  refine ⟨hlen, ?_, ?_⟩
  · have hmap := congrArg (Multiset.map checkSingleAPI) hnames'
    have hlhs : Multiset.map checkSingleAPI ↑(s.results.map APIResult.Name) =
        (↑s.results : Multiset APIResult) := by
      have : (s.results.map APIResult.Name).map checkSingleAPI = s.results := by
        rw [List.map_map]
        exact hself
      exact congrArg _ this
    rw [hlhs] at hmap
    exact hmap
  · intro hnd id hid
    have hcount : List.count id (s.results.map APIResult.Name) = List.count id apis := by
      have := congrArg (Multiset.count id) hnames'
      simpa [Multiset.coe_count] using this
    have h1 : List.count id apis = 1 := List.count_eq_one_of_mem hnd hid
    have hfl : (s.results.filter (fun r => r.Name == id)).length =
        List.countP (fun r => r.Name == id) s.results :=
      (List.countP_eq_length_filter _ _).symm
    have hcp : List.countP (fun r => r.Name == id) s.results =
        List.count id (s.results.map APIResult.Name) := by
      rw [List.count, List.countP_map]
      rfl
    rw [hfl, hcp, hcount, h1]

/-- C1 witness: a concrete drained run of the pool with N = 1 over a
one-element catalogue, instantiating `checkAllAPIs_complete`. -/
theorem checkAllAPIs_complete_witness :
    ([] ++ [checkSingleAPI "compute.googleapis.com"]).length = 1 := by
  have hstep1 : PoolStep 1 (initPool ["compute.googleapis.com"])
      ⟨[], "compute.googleapis.com" ::ₘ 0, []⟩ :=
    PoolStep.take "compute.googleapis.com" [] 0 [] (by simp)
  have hstep2 : PoolStep 1 ⟨[], "compute.googleapis.com" ::ₘ 0, []⟩
      ⟨[], ("compute.googleapis.com" ::ₘ 0).erase "compute.googleapis.com",
        [] ++ [checkSingleAPI "compute.googleapis.com"]⟩ :=
    PoolStep.finish [] _ [] _ (Multiset.mem_cons_self _ _)
  have hreach : PoolReachable 1 (initPool ["compute.googleapis.com"])
      ⟨[], ("compute.googleapis.com" ::ₘ 0).erase "compute.googleapis.com",
        [] ++ [checkSingleAPI "compute.googleapis.com"]⟩ :=
    Relation.ReflTransGen.head hstep1 (Relation.ReflTransGen.single hstep2)
  have hdone : PoolDone
      ⟨[], ("compute.googleapis.com" ::ₘ 0).erase "compute.googleapis.com",
        [] ++ [checkSingleAPI "compute.googleapis.com"]⟩ := by
    refine ⟨rfl, ?_⟩
    simp [Multiset.erase_cons_head]
  exact (checkAllAPIs_complete ["compute.googleapis.com"] 1 (le_refl 1)
    (by simp) _ hreach hdone).1

/-- C2 (amended): in every report produced by GenerateReport, the
high-cost list holds exactly the results that are enabled (empty error,
`Enabled` set), have pricing, and cost strictly more than 50 — a cost
of exactly 50 is excluded — and it is arranged in descending cost
order; the relative order of equal costs is NOT guaranteed to follow
input order, because the source sorts with `sort.Slice`, which is not
stable. -/
theorem generateReport_highCost (results : List APIResult) (report : Report)
    (h : GenerateReportRel results report) :
    report.costAnalysis.HighCostAPIs.Perm (results.filter highCond) ∧
    report.costAnalysis.HighCostAPIs.Pairwise
      (fun a b => b.CostInfo.EstimatedCost ≤ a.CostInfo.EstimatedCost) := by
  obtain ⟨su, sh, _, ⟨hperm, hpair⟩, rfl⟩ := h
  have hproj : (assembleReport results su sh).costAnalysis.HighCostAPIs = sh := rfl
  rw [hproj]
  have hhigh : (collectResults results).highCostList = results.filter highCond := by
    simpa [collectResults, ReportAccum.init] using foldl_high results ReportAccum.init
  refine ⟨by rw [← hhigh]; exact hperm, ?_⟩
  refine hpair.imp ?_
  intro a b hab
  exact not_lt.mp hab

/-- C2 counterexample: on a catalogue with two enabled priced results
of equal cost 60, the report placing them in reversed input order is a
legal outcome of GenerateReport (it satisfies the `sort.Slice`
contract), so ties are not kept in input order as the claim states. -/
theorem generateReport_highCost_tie_counterexample :
    GenerateReportRel [rHighA, rHighB]
      (assembleReport [rHighA, rHighB] [] [rHighB, rHighA]) ∧
    rHighA.CostInfo.EstimatedCost = rHighB.CostInfo.EstimatedCost ∧
    (assembleReport [rHighA, rHighB] [] [rHighB, rHighA]).costAnalysis.HighCostAPIs ≠
      [rHighA, rHighB] := by
  refine ⟨⟨[], [rHighB, rHighA], ⟨?_, ?_⟩, ⟨?_, ?_⟩, rfl⟩, by decide, by decide⟩
  · show List.Perm [] (collectResults [rHighA, rHighB]).unlimitedList
    decide
  · decide
  · show List.Perm [rHighB, rHighA] (collectResults [rHighA, rHighB]).highCostList
    decide
  · decide

/-- C2 witness: `generateReport_highCost` applied to a concrete legal
report over the two-result catalogue. -/
theorem generateReport_highCost_witness :
    (assembleReport [rHighA, rHighB] [] [rHighA, rHighB]).costAnalysis.HighCostAPIs.Perm
      ([rHighA, rHighB].filter highCond) := by
  refine (generateReport_highCost [rHighA, rHighB] _
    ⟨[], [rHighA, rHighB], ⟨?_, ?_⟩, ⟨?_, ?_⟩, rfl⟩).1
  · show List.Perm [] (collectResults [rHighA, rHighB]).unlimitedList
    decide
  · decide
  · show List.Perm [rHighA, rHighB] (collectResults [rHighA, rHighB]).highCostList
    decide
  · decide

lemma not_unlimitedLess_of_eq {a b : APIResult}
    (h : a.DisplayName = b.DisplayName) : ¬ unlimitedLess a b := by
  rw [unlimitedLess, h]
  exact lt_irrefl _

/-- C3 (amended): in every report produced by GenerateReport, the
unlimited-risk list holds exactly the results that are enabled, have
pricing, and are flagged unlimited-cost, arranged in ascending display
name order; the relative order of equal display names is NOT
guaranteed to follow input order, because the source sorts with
`sort.Slice`, which is not stable. -/
theorem generateReport_unlimited (results : List APIResult) (report : Report)
    (h : GenerateReportRel results report) :
    report.costAnalysis.UnlimitedCostAPIs.Perm (results.filter unlimitedCond) ∧
    report.costAnalysis.UnlimitedCostAPIs.Pairwise
      (fun a b => ¬ b.DisplayName < a.DisplayName) := by
  obtain ⟨su, sh, ⟨hperm, hpair⟩, _, rfl⟩ := h
  have hproj : (assembleReport results su sh).costAnalysis.UnlimitedCostAPIs = su := rfl
  rw [hproj]
  have hunl : (collectResults results).unlimitedList = results.filter unlimitedCond := by
    simpa [collectResults, ReportAccum.init] using foldl_unlimited results ReportAccum.init
  exact ⟨by rw [← hunl]; exact hperm, hpair⟩

/-- C3 counterexample: on a catalogue with two enabled unlimited-cost
results sharing one display name, the report placing them in reversed
input order is a legal outcome of GenerateReport (it satisfies the
`sort.Slice` contract), so ties are not kept in input order as the
claim states. -/
theorem generateReport_unlimited_tie_counterexample :
    GenerateReportRel [rUnlA, rUnlB]
      (assembleReport [rUnlA, rUnlB] [rUnlB, rUnlA] []) ∧
    rUnlA.DisplayName = rUnlB.DisplayName ∧
    (assembleReport [rUnlA, rUnlB] [rUnlB, rUnlA] []).costAnalysis.UnlimitedCostAPIs ≠
      [rUnlA, rUnlB] := by
  refine ⟨⟨[rUnlB, rUnlA], [], ⟨?_, ?_⟩, ⟨?_, ?_⟩, rfl⟩, by decide, by decide⟩
  · show List.Perm [rUnlB, rUnlA] (collectResults [rUnlA, rUnlB]).unlimitedList
    decide
  · show List.Pairwise (fun a b => ¬ unlimitedLess b a) [rUnlB, rUnlA]
    refine List.pairwise_cons.mpr ⟨?_, List.pairwise_singleton _ _⟩
    intro b hb
    rw [List.mem_singleton.mp hb]
    exact not_unlimitedLess_of_eq rfl
  · show List.Perm [] (collectResults [rUnlA, rUnlB]).highCostList
    decide
  · decide

/-- C3 witness: `generateReport_unlimited` applied to a concrete legal
report over the two-result catalogue. -/
theorem generateReport_unlimited_witness :
    (assembleReport [rUnlA, rUnlB] [rUnlA, rUnlB] []).costAnalysis.UnlimitedCostAPIs.Perm
      ([rUnlA, rUnlB].filter unlimitedCond) := by
  refine (generateReport_unlimited [rUnlA, rUnlB] _
    ⟨[rUnlA, rUnlB], [], ⟨?_, ?_⟩, ⟨?_, ?_⟩, rfl⟩).1
  · show List.Perm [rUnlA, rUnlB] (collectResults [rUnlA, rUnlB]).unlimitedList
    decide
  · show List.Pairwise (fun a b => ¬ unlimitedLess b a) [rUnlA, rUnlB]
    refine List.pairwise_cons.mpr ⟨?_, List.pairwise_singleton _ _⟩
    intro b hb
    rw [List.mem_singleton.mp hb]
    exact not_unlimitedLess_of_eq rfl
  · show List.Perm [] (collectResults [rUnlA, rUnlB]).highCostList
    decide
  · decide

/-- C4: in every report produced by GenerateReport, the cost-breakdown
map has an entry exactly for each display name carried by some enabled,
pricing-bearing result, the stored value is the estimated cost of the
LAST such result in input order (a later result overwrites an earlier
one sharing its display name), and no other key is present. -/
theorem generateReport_costBreakdown (results : List APIResult) (report : Report)
    (h : GenerateReportRel results report) (k : String) :
    report.costAnalysis.CostBreakdown k =
      ((results.filter pricedCond).reverse.find?
        (fun r => r.DisplayName == k)).map (fun r => r.CostInfo.EstimatedCost) ∧
    ((report.costAnalysis.CostBreakdown k).isSome ↔
      ∃ r ∈ results, pricedCond r = true ∧ r.DisplayName = k) := by
  obtain ⟨su, sh, _, _, rfl⟩ := h
  have hproj : (assembleReport results su sh).costAnalysis.CostBreakdown =
      (collectResults results).costBreakdown := rfl
  rw [hproj]
  have hbd := foldl_breakdown results ReportAccum.init k
  rw [collectResults]
  refine ⟨?_, ?_⟩
  · rw [hbd]
    cases hfind : (results.filter pricedCond).reverse.find? (fun r => r.DisplayName == k) with
    | some r => simp
    | none => simp [ReportAccum.init]
  · rw [hbd]
    cases hfind : (results.filter pricedCond).reverse.find? (fun r => r.DisplayName == k) with
    | some r =>
      simp only [Option.isSome_some, true_iff]
      have hmem := List.mem_of_find?_eq_some hfind
      rw [List.mem_reverse, List.mem_filter] at hmem
      have hp := List.find?_some hfind
      exact ⟨r, hmem.1, hmem.2, beq_iff_eq.mp hp⟩
    | none =>
      refine iff_of_false (by simp [ReportAccum.init]) ?_
      rintro ⟨r, hr, hpc, hdn⟩
      have : ∃ x ∈ (results.filter pricedCond).reverse, (x.DisplayName == k) = true := by
        refine ⟨r, ?_, beq_iff_eq.mpr hdn⟩
        rw [List.mem_reverse, List.mem_filter]
        exact ⟨hr, hpc⟩
      rw [← List.find?_isSome, hfind] at this
      simp at this

/-- C4 witness: `generateReport_costBreakdown` applied to a concrete
report; the breakdown entry for the display name of `rHighA` holds its
cost. -/
theorem generateReport_costBreakdown_witness :
    (assembleReport [rHighA, rHighB] [] [rHighA, rHighB]).costAnalysis.CostBreakdown
      "Alpha API" = some 60 := by
  have h := generateReport_costBreakdown [rHighA, rHighB] _
    ⟨[], [rHighA, rHighB], ⟨by decide, by decide⟩,
      ⟨by decide, by decide⟩, rfl⟩ "Alpha API"
  rw [h.1]
  decide

/-- C5: for every report body, the recommendations are, in fixed
order: the unlimited-risk block (count line then one line per item)
exactly when the unlimited-risk list is non-empty, then the high-cost
block (count line then one line per item) exactly when the high-cost
list is non-empty, then one total-cost advisory exactly when the
summary total cost is strictly above 500, then one disabled-count
advisory exactly when there are disabled items, then the three fixed
general-advice lines, always last. -/
theorem generateRecommendations_structure (report : Report) :
    generateRecommendations report =
      (if report.costAnalysis.UnlimitedCostAPIs ≠ [] then
        ("⚠️  CRITICAL: Found " ++ toString report.costAnalysis.UnlimitedCostAPIs.length ++
          " APIs with unlimited cost potential. Review and set usage limits immediately:") ::
          report.costAnalysis.UnlimitedCostAPIs.map (fun api =>
            "   - " ++ api.DisplayName ++ ": " ++ api.CostInfo.PricingDetails)
      else []) ++
      (if report.costAnalysis.HighCostAPIs ≠ [] then
        ("💰 High cost APIs detected (" ++ toString report.costAnalysis.HighCostAPIs.length ++
          " APIs with >$50 estimated cost):") ::
          report.costAnalysis.HighCostAPIs.map (fun api =>
            "   - " ++ api.DisplayName ++ ": $" ++ formatCost api.CostInfo.EstimatedCost ++ "/month")
      else []) ++
      (if report.Summary.TotalCost > 500 then
        ["💸 Total estimated monthly cost is high: $" ++ formatCost report.Summary.TotalCost ++
          ". Consider reviewing usage patterns."]
      else []) ++
      (if report.DisabledAPIs ≠ [] then
        ["🔒 " ++ toString report.DisabledAPIs.length ++
          " APIs are currently disabled. Review if any are needed for your application."]
      else []) ++
      [ "📊 Set up billing alerts and budget limits in Google Cloud Console"
      , "🔍 Regularly monitor API usage and costs"
      , "⚡ Consider using quotas and rate limiting for high-cost APIs" ] := by
  unfold generateRecommendations
  by_cases h1 : report.costAnalysis.UnlimitedCostAPIs = [] <;>
    by_cases h2 : report.costAnalysis.HighCostAPIs = [] <;>
    by_cases h3 : report.Summary.TotalCost > 500 <;>
    by_cases h4 : report.DisabledAPIs = [] <;>
    simp [h1, h2, h3, h4, List.length_pos, List.isEmpty_iff,
      List.length_eq_zero, List.append_assoc]

/-- C6: a probe failure is converted locally into a result with status
ERROR carrying the failure message (the function still returns a
result, never propagating the fault); the run-level error of
CheckAllAPIs can only arise from a catalogue-listing failure, and the
actual listing never fails; and for every result the code produces,
the status is ERROR exactly when the error message is non-empty. -/
theorem probe_failures_isolated :
    (∀ apiName msg,
      (checkSingleAPIWith (Except.error msg) (getCostInfo apiName) apiName).Status = "ERROR" ∧
      (checkSingleAPIWith (Except.error msg) (getCostInfo apiName) apiName).Error = msg) ∧
    (∀ listing e, checkAllAPIsErrorWith listing = some e →
      ∃ msg, listing = Except.error msg) ∧
    checkAllAPIsErrorWith getAvailableAPIs = none ∧
    (∀ apiName,
      (checkSingleAPI apiName).Status = "ERROR" ↔ (checkSingleAPI apiName).Error ≠ "") := by
  refine ⟨fun apiName msg => ⟨rfl, rfl⟩, ?_, rfl, ?_⟩
  · intro listing e h
    cases listing with
    | error msg => exact ⟨msg, rfl⟩
    | ok l => simp [checkAllAPIsErrorWith] at h
  · intro apiName
    obtain ⟨herr, _, _, hstatus, _⟩ := checkSingleAPI_fields apiName
    rw [herr]
    rcases hstatus with h | h <;> rw [h] <;> simp

/-- C6 witness: `probe_failures_isolated` instantiated at a concrete
identifier and failure message. -/
theorem probe_failures_isolated_witness :
    (checkSingleAPIWith (Except.error "boom") (getCostInfo "x.googleapis.com")
      "x.googleapis.com").Status = "ERROR" :=
  (probe_failures_isolated.1 "x.googleapis.com" "boom").1

/-- C7: the claim asserts the catalogue identifiers are pairwise
distinct, but the static catalogue of `getAvailableAPIs` contains
duplicates — `videointelligence.googleapis.com` appears twice (at two
consecutive positions) and `cloudtrace.googleapis.com` three times —
so the final result set also carries duplicate identifiers: the code
contradicts the documented uniqueness invariant. -/
theorem availableAPIs_duplicate_identifiers :
    availableAPIs.count "videointelligence.googleapis.com" = 2 ∧
    availableAPIs.count "cloudtrace.googleapis.com" = 3 ∧
    availableAPIs.Nodup = False := by
  refine ⟨by decide, by decide, ?_⟩
  simp only [eq_iff_iff, iff_false]
  intro hnd
  have := List.nodup_iff_count_le_one.mp hnd "videointelligence.googleapis.com"
  rw [show availableAPIs.count "videointelligence.googleapis.com" = 2 from by decide] at this
  omega

/-- C8: for every result the code produces, the cost profile reports
no pricing exactly when its remaining fields hold the zero/default
values of the no-pricing case (cost 0, default currency and details
text) and the unlimited-risk flag is off. -/
theorem costInfo_hasPricing_iff (apiName : String) :
    ((checkSingleAPI apiName).CostInfo.HasPricing = false) ↔
      ((checkSingleAPI apiName).CostInfo.EstimatedCost = 0 ∧
       (checkSingleAPI apiName).CostInfo.Currency = defaultCostInfo.Currency ∧
       (checkSingleAPI apiName).CostInfo.PricingDetails = defaultCostInfo.PricingDetails ∧
       (checkSingleAPI apiName).CostInfo.UnlimitedCost = false) := by
  obtain ⟨_, _, hci, _, _⟩ := checkSingleAPI_fields apiName
  rw [hci]
  cases hl : costData.lookup apiName with
  | none => simp [defaultCostInfo]
  | some ci =>
    have hfact : ∀ p ∈ costData, p.2.HasPricing = true ∧
        (p.2.EstimatedCost = 0 → p.2.UnlimitedCost = true) := by decide
    obtain ⟨hp, himp⟩ := hfact _ (lookup_mem hl)
    refine iff_of_false ?_ ?_
    · show ¬ ci.HasPricing = false
      rw [show ci.HasPricing = true from hp]
      simp
    · rintro ⟨h0, _, _, hu⟩
      have h0' : ci.EstimatedCost = 0 := h0
      have hu' : ci.UnlimitedCost = false := hu
      rw [show ci.UnlimitedCost = true from himp h0'] at hu'
      simp at hu'

/-- C8 witness: `costInfo_hasPricing_iff` instantiated at an
identifier absent from the cost table: its result carries the default
profile. -/
theorem costInfo_hasPricing_iff_witness :
    (checkSingleAPI "datalab.googleapis.com").CostInfo.EstimatedCost = 0 ∧
    (checkSingleAPI "datalab.googleapis.com").CostInfo.UnlimitedCost = false := by
  have h := (costInfo_hasPricing_iff "datalab.googleapis.com").mp (by decide)
  exact ⟨h.1, h.2.2.2⟩

/-- C9: for every probed catalogue identifier, the returned result's
display name is the mapped human label when the identifier is in the
display-name table and the identifier itself otherwise, and it is
never empty; this holds for every result the code produces (none of
which are errored, so in particular for any errored ones). -/
theorem displayName_defaults (apiName : String) (h : apiName ∈ availableAPIs) :
    (checkSingleAPI apiName).DisplayName = ((displayNames.lookup apiName).getD apiName) ∧
    (checkSingleAPI apiName).DisplayName ≠ "" := by
  obtain ⟨_, hdn, _, _, _⟩ := checkSingleAPI_fields apiName
  rw [hdn, getAPIDisplayName]
  cases hl : displayNames.lookup apiName with
  | some d =>
    have hfact : ∀ p ∈ displayNames, p.2 ≠ "" := by decide
    exact ⟨rfl, hfact _ (lookup_mem hl)⟩
  | none =>
    have hfact : ∀ a ∈ availableAPIs, a ≠ "" := by decide
    exact ⟨rfl, hfact _ h⟩

/-- C9 witness: `displayName_defaults` at a catalogue identifier with
a mapped display name. -/
theorem displayName_defaults_witness :
    (checkSingleAPI "compute.googleapis.com").DisplayName ≠ "" :=
  (displayName_defaults "compute.googleapis.com" (by decide)).2

/-- C10: for every identifier, the redundant status fields of the
returned result are coherent: the status is one of ENABLED, DISABLED,
ERROR; it is ERROR exactly when the error message is non-empty; and
with an empty error message the `Enabled` boolean holds exactly when
the status is ENABLED. -/
theorem status_fields_coherent (apiName : String) :
    ((checkSingleAPI apiName).Status = "ENABLED" ∨
      (checkSingleAPI apiName).Status = "DISABLED" ∨
      (checkSingleAPI apiName).Status = "ERROR") ∧
    ((checkSingleAPI apiName).Status = "ERROR" ↔ (checkSingleAPI apiName).Error ≠ "") ∧
    ((checkSingleAPI apiName).Error = "" →
      ((checkSingleAPI apiName).Enabled = true ↔ (checkSingleAPI apiName).Status = "ENABLED")) := by
  obtain ⟨herr, _, _, hstatus, hen⟩ := checkSingleAPI_fields apiName
  refine ⟨?_, ?_, fun _ => hen⟩
  · rcases hstatus with h | h
    · exact Or.inl h
    · exact Or.inr (Or.inl h)
  · rw [herr]
    rcases hstatus with h | h <;> rw [h] <;> simp

/-- C10 witness: `status_fields_coherent` at a concrete identifier the
enablement table marks disabled. -/
theorem status_fields_coherent_witness :
    (checkSingleAPI "pubsub.googleapis.com").Status = "ENABLED" ∨
    (checkSingleAPI "pubsub.googleapis.com").Status = "DISABLED" ∨
    (checkSingleAPI "pubsub.googleapis.com").Status = "ERROR" :=
  (status_fields_coherent "pubsub.googleapis.com").1
